import Mathlib

/-! # Bus-width adapters of the N64 core (`ares/n64/memory/io.hpp`)

A shallow embedding of the three adapter templates `RCP<T>`, `PI<T>` and `SI<T>`.

* Machine integers are natural numbers; a conversion to `u32` / `u64` is an explicit
  reduction modulo `2^32` / `2^64`.
* The bound device `T` is a record of its native accessors acting on an explicit device
  state `σ`.  A `u32& cycles` reference parameter is a value passed in and handed back.
* A template instantiation `read<Size>` is a function of the number `Size`.
* A call ends in one of three ways: it returns, it reaches the `unreachable` marker, or the
  instantiation is refused by a `static_assert`.
-/

namespace Ares

/-! ## Machine integers -/

/-- Conversion of a value to the type `u32`. -/
def u32 (x : Nat) : Nat := x % 2 ^ 32

/-- Conversion of a value to the type `u16`. -/
def u16 (x : Nat) : Nat := x % 2 ^ 16

/-- Conversion of a value to the type `u64`. -/
def u64 (x : Nat) : Nat := x % 2 ^ 64

/-! ## Width tags -/

/-- Modelled from the spec: the enumeration of width tags is declared outside `io.hpp`;
the spec gives `Byte = 1`. -/
def Byte : Nat := 1

/-- Modelled from the spec: the enumeration of width tags is declared outside `io.hpp`;
the spec gives `Half = 2`. -/
def Half : Nat := 2

/-- Modelled from the spec: the enumeration of width tags is declared outside `io.hpp`;
the spec gives `Word = 4`. -/
def Word : Nat := 4

/-- Modelled from the spec: the enumeration of width tags is declared outside `io.hpp`;
the spec gives `Dual = 8`. -/
def Dual : Nat := 8

/-! ## Outcomes -/

/-- Modelled from the spec: the macro `unreachable` is defined outside `io.hpp`; the spec
makes reaching it a fail-fast abort, told apart from a normal return.  An `Outcome` is how a
call of an adapter entry point ends: `ret` is a normal return, `unreachable` is control
reaching the marker, and `rejected` is a failed `static_assert`, for which the instantiation
does not exist and nothing runs. -/
inductive Outcome (α : Type) where
  | ret : α → Outcome α
  | unreachable : Outcome α
  | rejected : Outcome α
  deriving DecidableEq, Repr

/-! ## Devices -/

/-- The native accessors an `RCP` device supplies:
`readWord(u32 address, u32& cycles) -> u32` and
`writeWord(u32 address, u32 data, u32& cycles) -> void`.
`readWord s address cycles` yields the word, the cycles left in the reference and the next
device state; `writeWord s address data cycles` yields the cycles left and the next state. -/
structure RCPDevice (σ : Type) where
  readWord : σ → Nat → Nat → Nat × Nat × σ
  writeWord : σ → Nat → Nat → Nat → Nat × σ

/-- The native accessors a `PI` device supplies: `readHalf(u32) -> u16`,
`readWord(u32) -> u32`, `writeHalf(u32, u16)`, `writeWord(u32, u32)`. -/
structure PIDevice (σ : Type) where
  readHalf : σ → Nat → Nat × σ
  readWord : σ → Nat → Nat × σ
  writeHalf : σ → Nat → Nat → σ
  writeWord : σ → Nat → Nat → σ

/-- The native accessors an `SI` device supplies: `readWord(u32) -> u32`,
`writeWord(u32, u32)`. -/
structure SIDevice (σ : Type) where
  readWord : σ → Nat → Nat × σ
  writeWord : σ → Nat → Nat → σ

/-! ## `struct RCP` -/

namespace RCP

/-- `const u32 DefaultReadCycles = 20;` -/
def DefaultReadCycles : Nat := 20

/-- `const u32 DefaultWriteCycles = 0;` -/
def DefaultWriteCycles : Nat := 0

/-- `template<u32 Size> auto read(u32 address, u32& cycles) -> u64`.
The result is the returned value, the final content of `cycles` and the device state.
A `switch` without `default` is the sequence of tests of its case labels; when none
matches, control leaves the `switch` and goes on with the next statement. -/
def read {σ : Type} (dev : RCPDevice σ) (Size : Nat) (address cycles : Nat) (s : σ) :
    Outcome (Nat × Nat × σ) := Id.run do
  let mut cycles := cycles
  let mut s := s
  cycles := DefaultReadCycles
  if Size = Byte then
    let r := dev.readWord s address cycles
    let data := r.1
    cycles := r.2.1
    s := r.2.2
    -- switch(address & 3)
    if address &&& 3 = 0 then return .ret (data >>> 24, cycles, s)
    if address &&& 3 = 1 then return .ret (data >>> 16, cycles, s)
    if address &&& 3 = 2 then return .ret (data >>> 8, cycles, s)
    if address &&& 3 = 3 then return .ret (data >>> 0, cycles, s)
  if Size = Half then
    let r := dev.readWord s address cycles
    let data := r.1
    cycles := r.2.1
    s := r.2.2
    -- switch(address & 2)
    if address &&& 2 = 0 then return .ret (data >>> 16, cycles, s)
    if address &&& 2 = 2 then return .ret (data >>> 0, cycles, s)
  if Size = Word then
    let r := dev.readWord s address cycles
    return .ret (r.1, r.2.1, r.2.2)
  if Size = Dual then
    let r := dev.readWord s address cycles
    let data := r.1
    cycles := r.2.1
    s := r.2.2
    let r := dev.readWord s (u32 (address + 4)) cycles
    return .ret (u64 (data <<< 32) ||| r.1, r.2.1, r.2.2)
  return .unreachable

/-- `template<u32 Size> auto write(u32 address, u64 data, u32& cycles) -> void`.
The result is the final content of `cycles` and the device state.  The argument handed to
`writeWord` is converted to its `u32` parameter. -/
def write {σ : Type} (dev : RCPDevice σ) (Size : Nat) (address data cycles : Nat) (s : σ) :
    Outcome (Nat × σ) := Id.run do
  let mut cycles := cycles
  let mut s := s
  cycles := DefaultWriteCycles
  if Size = Byte then
    -- switch(address & 3)
    if address &&& 3 = 0 then
      return .ret (dev.writeWord s address (u32 (u64 (data <<< 24))) cycles)
    if address &&& 3 = 1 then
      return .ret (dev.writeWord s address (u32 (u64 (data <<< 16))) cycles)
    if address &&& 3 = 2 then
      return .ret (dev.writeWord s address (u32 (u64 (data <<< 8))) cycles)
    if address &&& 3 = 3 then
      return .ret (dev.writeWord s address (u32 (u64 (data <<< 0))) cycles)
  if Size = Half then
    -- switch(address & 2)
    if address &&& 2 = 0 then
      return .ret (dev.writeWord s address (u32 (u64 (data <<< 16))) cycles)
    if address &&& 2 = 2 then
      return .ret (dev.writeWord s address (u32 (u64 (data <<< 0))) cycles)
  if Size = Word then
    let r := dev.writeWord s address (u32 data) cycles
    cycles := r.1
    s := r.2
  if Size = Dual then
    let r := dev.writeWord s address (u32 (data >>> 32)) cycles
    cycles := r.1
    s := r.2
  return .ret (cycles, s)

end RCP

/-! ## `struct PI` -/

namespace PI

/-- `template<u32 Size> auto read(u32 address) -> u64`, guarded by
`static_assert(Size == Half || Size == Word)`. -/
def read {σ : Type} (dev : PIDevice σ) (Size : Nat) (address : Nat) (s : σ) :
    Outcome (Nat × σ) := Id.run do
  if ¬ (Size = Half ∨ Size = Word) then return .rejected
  if Size = Half then
    return .ret (dev.readHalf s address)
  if Size = Word then
    return .ret (dev.readWord s address)
  return .unreachable

/-- `template<u32 Size> auto write(u32 address, u64 data) -> void`, guarded by
`static_assert(Size == Half || Size == Word)`.  The argument is converted to the `u16`
resp. `u32` parameter of the native accessor. -/
def write {σ : Type} (dev : PIDevice σ) (Size : Nat) (address data : Nat) (s : σ) :
    Outcome σ := Id.run do
  if ¬ (Size = Half ∨ Size = Word) then return .rejected
  if Size = Half then
    return .ret (dev.writeHalf s address (u16 data))
  if Size = Word then
    return .ret (dev.writeWord s address (u32 data))
  return .unreachable

end PI

/-! ## `struct SI` -/

namespace SI

/-- `template<u32 Size> auto read(u32 address) -> u64`, guarded by
`static_assert(Size == Word)`. -/
def read {σ : Type} (dev : SIDevice σ) (Size : Nat) (address : Nat) (s : σ) :
    Outcome (Nat × σ) := Id.run do
  if ¬ (Size = Word) then return .rejected
  if Size = Word then
    return .ret (dev.readWord s address)
  return .unreachable

/-- `template<u32 Size> auto write(u32 address, u64 data) -> void`, guarded by
`static_assert(Size == Word)`. -/
def write {σ : Type} (dev : SIDevice σ) (Size : Nat) (address data : Nat) (s : σ) :
    Outcome σ := Id.run do
  if ¬ (Size = Word) then return .rejected
  if Size = Word then
    return .ret (dev.writeWord s address (u32 data))
  return .unreachable

end SI

/-! ## Observing the native calls

To speak about which native accessors an adapter invokes, a device is wrapped so that
every native call is appended to a log carried next to the device state. -/

/-- A native call received by an `RCP` device, with the arguments it was given. -/
inductive RCPCall where
  | readWord (address cycles : Nat)
  | writeWord (address data cycles : Nat)
  deriving DecidableEq, Repr

/-- A native call received by a `PI` or `SI` device, with the arguments it was given. -/
inductive BusCall where
  | readHalf (address : Nat)
  | readWord (address : Nat)
  | writeHalf (address data : Nat)
  | writeWord (address data : Nat)
  deriving DecidableEq, Repr

/-- The device `dev`, recording each native call it receives. -/
def RCPDevice.logged {σ : Type} (dev : RCPDevice σ) : RCPDevice (σ × List RCPCall) where
  readWord := fun s address cycles =>
    let r := dev.readWord s.1 address cycles
    (r.1, r.2.1, (r.2.2, s.2 ++ [RCPCall.readWord address cycles]))
  writeWord := fun s address data cycles =>
    let r := dev.writeWord s.1 address data cycles
    (r.1, (r.2, s.2 ++ [RCPCall.writeWord address data cycles]))

/-- The device `dev`, recording each native call it receives. -/
def PIDevice.logged {σ : Type} (dev : PIDevice σ) : PIDevice (σ × List BusCall) where
  readHalf := fun s address =>
    let r := dev.readHalf s.1 address
    (r.1, (r.2, s.2 ++ [BusCall.readHalf address]))
  readWord := fun s address =>
    let r := dev.readWord s.1 address
    (r.1, (r.2, s.2 ++ [BusCall.readWord address]))
  writeHalf := fun s address data =>
    (dev.writeHalf s.1 address data, s.2 ++ [BusCall.writeHalf address data])
  writeWord := fun s address data =>
    (dev.writeWord s.1 address data, s.2 ++ [BusCall.writeWord address data])

/-- The device `dev`, recording each native call it receives. -/
def SIDevice.logged {σ : Type} (dev : SIDevice σ) : SIDevice (σ × List BusCall) where
  readWord := fun s address =>
    let r := dev.readWord s.1 address
    (r.1, (r.2, s.2 ++ [BusCall.readWord address]))
  writeWord := fun s address data =>
    (dev.writeWord s.1 address data, s.2 ++ [BusCall.writeWord address data])

/-! ## Example devices -/

/-- The device of the spec's example: a word array; the word at byte address `a` is entry
`a / 4`, reads leave the array and the cycles alone, writes store the word. -/
def wordArray : RCPDevice (List Nat) where
  readWord := fun s address cycles => (s.getD (address / 4) 0, cycles, s)
  writeWord := fun s address data cycles => (cycles, s.set (address / 4) data)

/-- A one-word register: a write stores the word, a read hands it back. -/
def latch : RCPDevice Nat where
  readWord := fun s _ cycles => (s, cycles, s)
  writeWord := fun _ _ data cycles => (cycles, data)

/-- A FIFO with side effects per access: a read pops the head of the queue and charges
its own cost, one more than the cycles it was handed. -/
def fifo : RCPDevice (List Nat) where
  readWord := fun s _ cycles => (s.headD 0, cycles + 1, s.tail)
  writeWord := fun s _ data cycles => (cycles + 1, s ++ [data])

/-- A `PI` device over a list of halfwords, entry `a / 2` at byte address `a`. -/
def halfArray : PIDevice (List Nat) where
  readHalf := fun s address => (s.getD (address / 2) 0, s)
  readWord := fun s address =>
    (s.getD (address / 2) 0 * 2 ^ 16 + s.getD (address / 2 + 1) 0, s)
  writeHalf := fun s address data => s.set (address / 2) data
  writeWord := fun s address data =>
    (s.set (address / 2) (data / 2 ^ 16)).set (address / 2 + 1) (data % 2 ^ 16)

/-- An `SI` device over a list of words, entry `a / 4` at byte address `a`. -/
def siArray : SIDevice (List Nat) where
  readWord := fun s address => (s.getD (address / 4) 0, s)
  writeWord := fun s address data => s.set (address / 4) data

/-- A stateless device that overrides the cost: a read returns its address as the word and
leaves twice the cycles it was handed plus 3; a write leaves the cycles it was handed plus
7. -/
def costly : RCPDevice Unit where
  readWord := fun s address cycles => (address, 2 * cycles + 3, s)
  writeWord := fun s _ _ cycles => (cycles + 7, s)

/-! ## Lane selection -/

theorem and_three_cases (a : Nat) :
    a &&& 3 = 0 ∨ a &&& 3 = 1 ∨ a &&& 3 = 2 ∨ a &&& 3 = 3 := by
  have h : a &&& 3 ≤ 3 := Nat.and_le_right
  omega

theorem and_two_cases (a : Nat) : a &&& 2 = 0 ∨ a &&& 2 = 2 := by
  have h : a &&& 2 ≤ 2 := Nat.and_le_right
  have h0 : (a &&& 2).testBit 0 = false := by simp [Nat.testBit_and]
  have h1 : (a &&& 2) % 2 ≠ 1 := by
    intro h2
    rw [Nat.testBit_zero] at h0
    simp [h2] at h0
  omega

/-! ## The arms of `RCP::read` and `RCP::write` -/

theorem RCP_read_Byte {σ : Type} (dev : RCPDevice σ) (a c : Nat) (s : σ) :
    RCP.read dev Byte a c s =
      .ret ((dev.readWord s a 20).1 >>> (24 - 8 * (a &&& 3)),
        (dev.readWord s a 20).2.1, (dev.readWord s a 20).2.2) := by
  rcases and_three_cases a with h | h | h | h <;>
    simp [RCP.read, Id.run, Byte, RCP.DefaultReadCycles, h]

theorem RCP_read_Half {σ : Type} (dev : RCPDevice σ) (a c : Nat) (s : σ) :
    RCP.read dev Half a c s =
      .ret ((dev.readWord s a 20).1 >>> (if a &&& 2 = 0 then 16 else 0),
        (dev.readWord s a 20).2.1, (dev.readWord s a 20).2.2) := by
  rcases and_two_cases a with h | h <;>
    simp [RCP.read, Id.run, Byte, Half, RCP.DefaultReadCycles, h]

theorem RCP_read_Word {σ : Type} (dev : RCPDevice σ) (a c : Nat) (s : σ) :
    RCP.read dev Word a c s =
      .ret ((dev.readWord s a 20).1, (dev.readWord s a 20).2.1, (dev.readWord s a 20).2.2) := by
  simp [RCP.read, Id.run, Byte, Half, Word, RCP.DefaultReadCycles]

theorem RCP_read_Dual {σ : Type} (dev : RCPDevice σ) (a c : Nat) (s : σ) :
    RCP.read dev Dual a c s =
      .ret (u64 ((dev.readWord s a 20).1 <<< 32) |||
          (dev.readWord (dev.readWord s a 20).2.2 (u32 (a + 4)) (dev.readWord s a 20).2.1).1,
        (dev.readWord (dev.readWord s a 20).2.2 (u32 (a + 4)) (dev.readWord s a 20).2.1).2.1,
        (dev.readWord (dev.readWord s a 20).2.2 (u32 (a + 4)) (dev.readWord s a 20).2.1).2.2) := by
  simp [RCP.read, Id.run, Byte, Half, Word, Dual, RCP.DefaultReadCycles]

theorem RCP_read_illegal {σ : Type} (dev : RCPDevice σ) (Size a c : Nat) (s : σ)
    (hB : Size ≠ Byte) (hH : Size ≠ Half) (hW : Size ≠ Word) (hD : Size ≠ Dual) :
    RCP.read dev Size a c s = .unreachable := by
  simp [RCP.read, Id.run, hB, hH, hW, hD]

theorem RCP_write_Byte {σ : Type} (dev : RCPDevice σ) (a d c : Nat) (s : σ) :
    RCP.write dev Byte a d c s =
      .ret (dev.writeWord s a (u32 (u64 (d <<< (24 - 8 * (a &&& 3))))) 0) := by
  rcases and_three_cases a with h | h | h | h <;>
    simp [RCP.write, Id.run, Byte, RCP.DefaultWriteCycles, h]

theorem RCP_write_Half {σ : Type} (dev : RCPDevice σ) (a d c : Nat) (s : σ) :
    RCP.write dev Half a d c s =
      .ret (dev.writeWord s a (u32 (u64 (d <<< (if a &&& 2 = 0 then 16 else 0)))) 0) := by
  rcases and_two_cases a with h | h <;>
    simp [RCP.write, Id.run, Byte, Half, RCP.DefaultWriteCycles, h]

theorem RCP_write_Word {σ : Type} (dev : RCPDevice σ) (a d c : Nat) (s : σ) :
    RCP.write dev Word a d c s = .ret (dev.writeWord s a (u32 d) 0) := by
  simp [RCP.write, Id.run, Byte, Half, Word, Dual, RCP.DefaultWriteCycles]

theorem RCP_write_Dual {σ : Type} (dev : RCPDevice σ) (a d c : Nat) (s : σ) :
    RCP.write dev Dual a d c s = .ret (dev.writeWord s a (u32 (d >>> 32)) 0) := by
  simp [RCP.write, Id.run, Byte, Half, Word, Dual, RCP.DefaultWriteCycles]

theorem RCP_write_illegal {σ : Type} (dev : RCPDevice σ) (Size a d c : Nat) (s : σ)
    (hB : Size ≠ Byte) (hH : Size ≠ Half) (hW : Size ≠ Word) (hD : Size ≠ Dual) :
    RCP.write dev Size a d c s = .ret (0, s) := by
  simp [RCP.write, Id.run, hB, hH, hW, hD, RCP.DefaultWriteCycles]

/-! ## The arms of `PI` and `SI` -/

theorem PI_read_Half {σ : Type} (dev : PIDevice σ) (a : Nat) (s : σ) :
    PI.read dev Half a s = .ret (dev.readHalf s a) := by
  simp [PI.read, Id.run]

theorem PI_read_Word {σ : Type} (dev : PIDevice σ) (a : Nat) (s : σ) :
    PI.read dev Word a s = .ret (dev.readWord s a) := by
  simp [PI.read, Id.run, Half, Word]

theorem PI_read_illegal {σ : Type} (dev : PIDevice σ) (Size a : Nat) (s : σ)
    (h : ¬ (Size = Half ∨ Size = Word)) : PI.read dev Size a s = .rejected := by
  simp [PI.read, Id.run, h]

theorem PI_write_Half {σ : Type} (dev : PIDevice σ) (a d : Nat) (s : σ) :
    PI.write dev Half a d s = .ret (dev.writeHalf s a (u16 d)) := by
  simp [PI.write, Id.run]

theorem PI_write_Word {σ : Type} (dev : PIDevice σ) (a d : Nat) (s : σ) :
    PI.write dev Word a d s = .ret (dev.writeWord s a (u32 d)) := by
  simp [PI.write, Id.run, Half, Word]

theorem PI_write_illegal {σ : Type} (dev : PIDevice σ) (Size a d : Nat) (s : σ)
    (h : ¬ (Size = Half ∨ Size = Word)) : PI.write dev Size a d s = .rejected := by
  simp [PI.write, Id.run, h]

theorem SI_read_Word {σ : Type} (dev : SIDevice σ) (a : Nat) (s : σ) :
    SI.read dev Word a s = .ret (dev.readWord s a) := by
  simp [SI.read, Id.run]

theorem SI_read_illegal {σ : Type} (dev : SIDevice σ) (Size a : Nat) (s : σ)
    (h : Size ≠ Word) : SI.read dev Size a s = .rejected := by
  simp [SI.read, Id.run, h]

theorem SI_write_Word {σ : Type} (dev : SIDevice σ) (a d : Nat) (s : σ) :
    SI.write dev Word a d s = .ret (dev.writeWord s a (u32 d)) := by
  simp [SI.write, Id.run]

theorem SI_write_illegal {σ : Type} (dev : SIDevice σ) (Size a d : Nat) (s : σ)
    (h : Size ≠ Word) : SI.write dev Size a d s = .rejected := by
  simp [SI.write, Id.run, h]

/-! ## Arithmetic of the lanes -/

theorem shiftRight_lane_lt (w k : Nat) (hw : w < 2 ^ 32) (hk : k ≤ 3) :
    w >>> (24 - 8 * k) < 2 ^ (8 * (k + 1)) := by
  rw [Nat.shiftRight_eq_div_pow]
  interval_cases k <;> norm_num <;> omega

theorem shiftRight_lane_byte (w k : Nat) (hk : k ≤ 3) :
    (w >>> (24 - 8 * k)) % 2 ^ 8 = w / 2 ^ (8 * (3 - k)) % 2 ^ 8 := by
  rw [Nat.shiftRight_eq_div_pow]
  have h : 24 - 8 * k = 8 * (3 - k) := by omega
  rw [h]

theorem shiftLeft32_or (w1 w2 : Nat) (hw2 : w2 < 2 ^ 32) :
    w1 <<< 32 ||| w2 = w1 * 2 ^ 32 + w2 := by
  rw [Nat.shiftLeft_eq, Nat.mul_comm w1, Nat.mul_add_lt_is_or hw2]

theorem u64_shiftLeft32 (w1 : Nat) (hw1 : w1 < 2 ^ 32) : u64 (w1 <<< 32) = w1 <<< 32 := by
  unfold u64
  rw [Nat.shiftLeft_eq]
  apply Nat.mod_eq_of_lt
  omega

theorem and_0xFFFF (w : Nat) : w &&& 0xFFFF = w % 2 ^ 16 := by
  have h := Nat.and_pow_two_sub_one_eq_mod w 16
  norm_num at h ⊢
  exact h

theorem shiftLeft_lane_lt (v k : Nat) (hv : v < 2 ^ 8) (hk : k ≤ 3) :
    v <<< (24 - 8 * k) < 2 ^ 32 := by
  rw [Nat.shiftLeft_eq]
  interval_cases k <;> norm_num <;> omega

theorem shiftLeft_half_lt (v k : Nat) (hv : v < 2 ^ 16) (hk : k = 16 ∨ k = 0) :
    v <<< k < 2 ^ 32 := by
  rw [Nat.shiftLeft_eq]
  rcases hk with h | h <;> subst h <;> norm_num <;> omega

theorem u32_u64_of_lt (x : Nat) (hx : x < 2 ^ 32) : u32 (u64 x) = x := by
  unfold u32 u64
  rw [Nat.mod_eq_of_lt (by omega : x < 2 ^ 64), Nat.mod_eq_of_lt hx]

theorem shiftRight32_lt (d : Nat) (hd : d < 2 ^ 64) : d >>> 32 < 2 ^ 32 := by
  rw [Nat.shiftRight_eq_div_pow]
  omega

theorem half_shift_eq (a : Nat) :
    (if a &&& 2 = 0 then 16 else 0) = 16 - 16 * ((a >>> 1) &&& 1) := by
  have hb : (a &&& 2).testBit 1 = a.testBit 1 := by
    rw [Nat.testBit_and]
    have h2 : (2 : Nat).testBit 1 = true := by decide
    rw [h2, Bool.and_true]
  have hd : a.testBit 1 = decide (a / 2 ^ 1 % 2 = 1) := Nat.testBit_to_div_mod
  rw [Nat.and_one_is_mod, Nat.shiftRight_eq_div_pow]
  rcases and_two_cases a with h | h
  · rw [h] at hb
    have h0 : (0 : Nat).testBit 1 = false := by decide
    rw [h0, hd] at hb
    have hne : ¬ (a / 2 ^ 1 % 2 = 1) := by simpa using hb.symm
    rw [if_pos h]
    omega
  · rw [h] at hb
    have h2 : (2 : Nat).testBit 1 = true := by decide
    rw [h2, hd] at hb
    have he : a / 2 ^ 1 % 2 = 1 := by simpa using hb.symm
    rw [if_neg (by omega : ¬ a &&& 2 = 0), he]

theorem testBit_u32_u64_shiftLeft (d k j : Nat) :
    (u32 (u64 (d <<< k))).testBit j
      = (decide (j < 32) && (decide (j < 64) && (decide (j ≥ k) && d.testBit (j - k)))) := by
  unfold u32 u64
  rw [Nat.testBit_mod_two_pow, Nat.testBit_mod_two_pow, Nat.testBit_shiftLeft]

theorem testBit_lane_below (d k j : Nat) (hj : j < k) :
    (u32 (u64 (d <<< k))).testBit j = false := by
  rw [testBit_u32_u64_shiftLeft]
  have h : decide (j ≥ k) = false := by simp [hj]
  simp [h]

theorem testBit_lane_inside (d k n i : Nat) (hk : k + n ≤ 32) (hi : i < n) :
    (u32 (u64 (d <<< k))).testBit (k + i) = d.testBit i := by
  rw [testBit_u32_u64_shiftLeft]
  have h1 : decide (k + i < 32) = true := by simp; omega
  have h2 : decide (k + i < 64) = true := by simp; omega
  have h3 : decide (k + i ≥ k) = true := by simp
  rw [h1, h2, h3, Nat.add_sub_cancel_left]
  simp

theorem testBit_lane_above (d k n j : Nat) (hd : d < 2 ^ n) (hj : k + n ≤ j) :
    (u32 (u64 (d <<< k))).testBit j = false := by
  rw [testBit_u32_u64_shiftLeft]
  have hlt : d < 2 ^ (j - k) :=
    Nat.lt_of_lt_of_le hd (Nat.pow_le_pow_right (by decide) (by omega))
  rw [Nat.testBit_lt_two_pow hlt]
  simp

theorem testBit_lane_top (d k j : Nat) (hj : 32 ≤ j) :
    (u32 (u64 (d <<< k))).testBit j = false := by
  rw [testBit_u32_u64_shiftLeft]
  have h : decide (j < 32) = false := by simp; omega
  simp [h]

/-! ## Reads of a device whose `readWord` keeps the state -/

theorem RCP_read_cycles_irrelevant {σ : Type} (dev : RCPDevice σ) (Size a c c' : Nat) (s : σ) :
    RCP.read dev Size a c s = RCP.read dev Size a c' s := by
  simp [RCP.read, Id.run]

theorem RCP_read_keeps_state {σ : Type} (dev : RCPDevice σ) (Size a c : Nat) (s : σ)
    (hS : Size = Byte ∨ Size = Half ∨ Size = Word ∨ Size = Dual)
    (hr : ∀ t x y, (dev.readWord t x y).2.2 = t) :
    ∃ v k, RCP.read dev Size a c s = .ret (v, k, s) := by
  rcases hS with h | h | h | h <;> subst h
  · rw [RCP_read_Byte]
    simp only [hr]
    exact ⟨_, _, rfl⟩
  · rw [RCP_read_Half]
    simp only [hr]
    exact ⟨_, _, rfl⟩
  · rw [RCP_read_Word]
    simp only [hr]
    exact ⟨_, _, rfl⟩
  · rw [RCP_read_Dual]
    simp only [hr]
    exact ⟨_, _, rfl⟩

/-! ## Claims -/

/-- C1, counterexample.  On the word array of the spec's example a Byte read at address 1
returns `0x1122`, the word `0x11223344` shifted right by 16 and not truncated: it is not the
single byte `0x22` the claim expects, and it is not below 256. -/
theorem C1_counterexample :
    RCP.read wordArray Byte 1 0 [0x11223344, 0x55667788]
        = .ret (0x1122, 20, [0x11223344, 0x55667788])
      ∧ (0x11223344 >>> (24 - 8 * (1 &&& 3))) % 2 ^ 8 = 0x22
      ∧ RCP.read wordArray Byte 1 0 [0x11223344, 0x55667788]
        ≠ .ret ((0x11223344 >>> (24 - 8 * (1 &&& 3))) % 2 ^ 8, 20, [0x11223344, 0x55667788])
      ∧ ¬ (0x1122 < 256) := by
  decide

/-- C1, amended.  When `readWord` returns the 32-bit word `w`, `RCP::read<Byte>(a)` returns
`w >> (24 - 8*(a&3))` as it is, without truncation to 8 bits, together with the cycles and
the device state `readWord` left.  The low 8 bits of the result are the byte of `w` in
big-endian lane `a&3` (byte `3 - (a&3)` from the least-significant one); the result is below
`2^(8*((a&3)+1))`, hence below 256 when `a&3 = 0`. -/
theorem C1_read_Byte_shift {σ : Type} (dev : RCPDevice σ) (a c w : Nat) (s : σ)
    (hw : (dev.readWord s a RCP.DefaultReadCycles).1 = w) (hw32 : w < 2 ^ 32) :
    RCP.read dev Byte a c s
        = .ret (w >>> (24 - 8 * (a &&& 3)), (dev.readWord s a RCP.DefaultReadCycles).2.1,
            (dev.readWord s a RCP.DefaultReadCycles).2.2)
      ∧ (w >>> (24 - 8 * (a &&& 3))) % 2 ^ 8 = w / 2 ^ (8 * (3 - (a &&& 3))) % 2 ^ 8
      ∧ w >>> (24 - 8 * (a &&& 3)) < 2 ^ (8 * ((a &&& 3) + 1))
      ∧ (a &&& 3 = 0 → w >>> (24 - 8 * (a &&& 3)) < 256) := by
  have hk : a &&& 3 ≤ 3 := Nat.and_le_right
  refine ⟨?_, shiftRight_lane_byte w _ hk, shiftRight_lane_lt w _ hw32 hk, ?_⟩
  · rw [RCP_read_Byte, ← hw]
    rfl
  · intro h0
    have h := shiftRight_lane_lt w _ hw32 hk
    rw [h0] at h ⊢
    simpa using h

/-- C1, witness of the amended statement: word `0x11223344`, address 1, result `0x1122`,
whose low byte is `0x22`. -/
theorem C1_read_Byte_shift_witness :
    (0x11223344 : Nat) < 2 ^ 32
      ∧ RCP.read wordArray Byte 1 0 [0x11223344, 0x55667788]
        = .ret (0x1122, 20, [0x11223344, 0x55667788])
      ∧ 0x1122 % 2 ^ 8 = 0x11223344 / 2 ^ (8 * (3 - 1)) % 2 ^ 8
      ∧ 0x1122 < 2 ^ (8 * (1 + 1)) :=
  have h := C1_read_Byte_shift wordArray 1 0 0x11223344 [0x11223344, 0x55667788] rfl
    (by decide)
  ⟨by decide, h.1, h.2.1, h.2.2.1⟩

/-- C2, counterexample.  On the word array of the spec's example a Half read at address 2
returns the whole word `0x11223344` (`data >> 0`): it is not the lower halfword `0x3344`
the claim expects, and it is not below 65536. -/
theorem C2_counterexample :
    RCP.read wordArray Half 2 0 [0x11223344, 0x55667788]
        = .ret (0x11223344, 20, [0x11223344, 0x55667788])
      ∧ 0x11223344 &&& 0xFFFF = 0x3344
      ∧ RCP.read wordArray Half 2 0 [0x11223344, 0x55667788]
        ≠ .ret (0x11223344 &&& 0xFFFF, 20, [0x11223344, 0x55667788])
      ∧ ¬ (0x11223344 < 65536) := by
  decide

/-- C2, amended.  When `readWord` returns the 32-bit word `w`, `RCP::read<Half>(a)` returns
the upper 16 bits `w >> 16` (a value below 65536) when `a&2 = 0`, and otherwise returns the
whole word `w` (`w >> 0`), not masked to 16 bits: the low 16 bits of that result are
`w & 0xFFFF` and the result is below `2^32`. -/
theorem C2_read_Half_shift {σ : Type} (dev : RCPDevice σ) (a c w c1 : Nat) (s s1 : σ)
    (hr : dev.readWord s a RCP.DefaultReadCycles = (w, c1, s1)) (hw32 : w < 2 ^ 32) :
    (a &&& 2 = 0 → RCP.read dev Half a c s = .ret (w >>> 16, c1, s1) ∧ w >>> 16 < 65536)
      ∧ (a &&& 2 ≠ 0 →
          RCP.read dev Half a c s = .ret (w, c1, s1) ∧ w % 2 ^ 16 = w &&& 0xFFFF
            ∧ w < 2 ^ 32) := by
  have hr20 : dev.readWord s a 20 = (w, c1, s1) := hr
  refine ⟨fun h0 => ⟨?_, ?_⟩, fun h2 => ⟨?_, (and_0xFFFF w).symm, hw32⟩⟩
  · rw [RCP_read_Half, hr20, if_pos h0]
  · rw [Nat.shiftRight_eq_div_pow]
    omega
  · rw [RCP_read_Half, hr20, if_neg h2]
    rfl

/-- C2, witness of the amended statement: word `0x11223344`; address 0 gives `0x1122`,
address 2 gives `0x11223344`, whose low halfword is `0x3344`. -/
theorem C2_read_Half_shift_witness :
    (RCP.read wordArray Half 0 0 [0x11223344, 0x55667788]
        = .ret (0x1122, 20, [0x11223344, 0x55667788]))
      ∧ (RCP.read wordArray Half 2 0 [0x11223344, 0x55667788]
        = .ret (0x11223344, 20, [0x11223344, 0x55667788]))
      ∧ 0x11223344 % 2 ^ 16 = 0x11223344 &&& 0xFFFF :=
  have h0 := (C2_read_Half_shift wordArray 0 0 0x11223344 20 [0x11223344, 0x55667788]
    [0x11223344, 0x55667788] rfl (by decide)).1 (by decide)
  have h2 := (C2_read_Half_shift wordArray 2 0 0x11223344 20 [0x11223344, 0x55667788]
    [0x11223344, 0x55667788] rfl (by decide)).2 (by decide)
  ⟨h0.1, h2.1, h2.2.1⟩

/-- C3.  `RCP::read<Dual>(a)` performs exactly two native calls: `readWord(a)` with the
default 20 cycles on the incoming device state, then `readWord((a+4) mod 2^32)` on the
state, and with the cycles, the first call left.  With 32-bit results `w1` and `w2` it
returns `(w1 << 32) | w2`, that is `w1 * 2^32 + w2`, a 64-bit value, and hands back the
cycles and the state of the second call. -/
theorem C3_read_Dual_two_calls {σ : Type} (dev : RCPDevice σ) (a c : Nat) (s : σ)
    (log : List RCPCall) (w1 c1 : Nat) (s1 : σ) (w2 c2 : Nat) (s2 : σ)
    (h1 : dev.readWord s a RCP.DefaultReadCycles = (w1, c1, s1))
    (h2 : dev.readWord s1 ((a + 4) % 2 ^ 32) c1 = (w2, c2, s2))
    (hw1 : w1 < 2 ^ 32) (hw2 : w2 < 2 ^ 32) :
    RCP.read dev.logged Dual a c (s, log)
        = .ret (w1 <<< 32 ||| w2, c2,
            (s2, log ++ [RCPCall.readWord a 20, RCPCall.readWord ((a + 4) % 2 ^ 32) c1]))
      ∧ w1 <<< 32 ||| w2 = w1 * 2 ^ 32 + w2
      ∧ w1 <<< 32 ||| w2 < 2 ^ 64 := by
  have h1q : dev.readWord s a 20 = (w1, c1, s1) := h1
  have h2q : dev.readWord s1 (u32 (a + 4)) c1 = (w2, c2, s2) := h2
  refine ⟨?_, shiftLeft32_or w1 w2 hw2, ?_⟩
  · rw [RCP_read_Dual]
    simp only [RCPDevice.logged, h1q, h2q, u64_shiftLeft32 w1 hw1, List.append_assoc,
      List.singleton_append]
    rfl
  · rw [shiftLeft32_or w1 w2 hw2]
    omega

/-- C3, witness: on the FIFO holding `0x11223344, 0x55667788` a Dual read at address 0
pops the high word first, hands the 21 cycles left by the first call to the second one and
returns `0x1122334455667788`. -/
theorem C3_read_Dual_two_calls_witness :
    RCP.read fifo.logged Dual 0 0 ([0x11223344, 0x55667788], [])
        = .ret (0x1122334455667788, 22,
            ([], [RCPCall.readWord 0 20, RCPCall.readWord 4 21]))
      ∧ (0x1122334455667788 : Nat) = 0x11223344 * 2 ^ 32 + 0x55667788 :=
  have h := C3_read_Dual_two_calls fifo 0 0 [0x11223344, 0x55667788] [] 0x11223344 21
    [0x55667788] 0x55667788 22 [] rfl rfl (by decide) (by decide)
  ⟨h.1, h.2.1⟩

/-- C4.  Write/read lane symmetry.  For a value `v` that fits the width, the only native call
of `RCP::write<Byte>(a, v)` is `writeWord(a, v << (24 - 8*(a&3)))` and the only native call
of `RCP::write<Half>(a, v)` is `writeWord(a, v << 16)` when `a&2 = 0`, `writeWord(a, v)`
otherwise: the shift is the one the read of that width applies at `a`, the shifted value
is a 32-bit word, and reading a device that hands back the delivered word with
`RCP::read` of the same width at `a` returns `v`. -/
theorem C4_write_read_lane_symmetry {σ : Type} (dev : RCPDevice σ) (a v c : Nat) (s : σ)
    (log : List RCPCall) :
    (v < 2 ^ 8 →
        RCP.write dev.logged Byte a v c (s, log)
          = .ret ((dev.writeWord s a (v <<< (24 - 8 * (a &&& 3))) 0).1,
              ((dev.writeWord s a (v <<< (24 - 8 * (a &&& 3))) 0).2,
                log ++ [RCPCall.writeWord a (v <<< (24 - 8 * (a &&& 3))) 0]))
        ∧ v <<< (24 - 8 * (a &&& 3)) < 2 ^ 32
        ∧ RCP.write latch Byte a v c 0 = .ret (0, v <<< (24 - 8 * (a &&& 3)))
        ∧ RCP.read latch Byte a c (v <<< (24 - 8 * (a &&& 3)))
          = .ret (v, 20, v <<< (24 - 8 * (a &&& 3))))
      ∧ (v < 2 ^ 16 →
        RCP.write dev.logged Half a v c (s, log)
          = .ret ((dev.writeWord s a (v <<< (if a &&& 2 = 0 then 16 else 0)) 0).1,
              ((dev.writeWord s a (v <<< (if a &&& 2 = 0 then 16 else 0)) 0).2,
                log ++ [RCPCall.writeWord a (v <<< (if a &&& 2 = 0 then 16 else 0)) 0]))
        ∧ v <<< (if a &&& 2 = 0 then 16 else 0) < 2 ^ 32
        ∧ RCP.write latch Half a v c 0 = .ret (0, v <<< (if a &&& 2 = 0 then 16 else 0))
        ∧ RCP.read latch Half a c (v <<< (if a &&& 2 = 0 then 16 else 0))
          = .ret (v, 20, v <<< (if a &&& 2 = 0 then 16 else 0))) := by
  have hk : a &&& 3 ≤ 3 := Nat.and_le_right
  constructor
  · intro hv
    have hlt := shiftLeft_lane_lt v (a &&& 3) hv hk
    refine ⟨?_, hlt, ?_, ?_⟩
    · rw [RCP_write_Byte, u32_u64_of_lt _ hlt]
      rfl
    · rw [RCP_write_Byte, u32_u64_of_lt _ hlt]
      rfl
    · rw [RCP_read_Byte]
      simp [latch, Nat.shiftLeft_shiftRight]
  · intro hv
    have hsh : (if a &&& 2 = 0 then 16 else 0) = 16 ∨ (if a &&& 2 = 0 then 16 else 0) = 0 := by
      by_cases h : a &&& 2 = 0 <;> simp [h]
    have hlt := shiftLeft_half_lt v _ hv hsh
    refine ⟨?_, hlt, ?_, ?_⟩
    · rw [RCP_write_Half, u32_u64_of_lt _ hlt]
      rfl
    · rw [RCP_write_Half, u32_u64_of_lt _ hlt]
      rfl
    · rw [RCP_read_Half]
      simp [latch, Nat.shiftLeft_shiftRight]

/-- C4, witness: byte `0xAB` written at address 1 is delivered as `0x00AB0000` and read back
as `0xAB`; halfword `0xBEEF` written at address 2 is delivered as `0x0000BEEF` and read
back as `0xBEEF`. -/
theorem C4_write_read_lane_symmetry_witness :
    (RCP.write wordArray.logged Byte 1 0xAB 7 ([0, 0], [])
        = .ret (0, ([0xAB0000, 0], [RCPCall.writeWord 1 0xAB0000 0]))
      ∧ RCP.read latch Byte 1 7 0xAB0000 = .ret (0xAB, 20, 0xAB0000))
    ∧ (RCP.write wordArray.logged Half 2 0xBEEF 7 ([0, 0], [])
        = .ret (0, ([0xBEEF, 0], [RCPCall.writeWord 2 0xBEEF 0]))
      ∧ RCP.read latch Half 2 7 0xBEEF = .ret (0xBEEF, 20, 0xBEEF)) :=
  have hB := (C4_write_read_lane_symmetry wordArray 1 0xAB 7 [0, 0] []).1 (by decide)
  have hH := (C4_write_read_lane_symmetry wordArray 2 0xBEEF 7 [0, 0] []).2 (by decide)
  ⟨⟨hB.1, hB.2.2.2⟩, ⟨hH.1, hH.2.2.2⟩⟩

/-- C5.  `RCP::write<Dual>(a, d)` performs exactly one native call, `writeWord(a, d >> 32)`
with the default 0 cycles: only the high 32 bits of `d` are forwarded, at address `a`;
nothing is written at `a+4`, and two values with the same high word give the same call,
result and device state. -/
theorem C5_write_Dual_high_word_only {σ : Type} (dev : RCPDevice σ) (a d c : Nat) (s : σ)
    (log : List RCPCall) (hd : d < 2 ^ 64) :
    RCP.write dev.logged Dual a d c (s, log)
        = .ret ((dev.writeWord s a (d >>> 32) 0).1,
            ((dev.writeWord s a (d >>> 32) 0).2, log ++ [RCPCall.writeWord a (d >>> 32) 0]))
      ∧ d >>> 32 = d / 2 ^ 32
      ∧ d >>> 32 < 2 ^ 32
      ∧ ∀ e, e < 2 ^ 64 → e >>> 32 = d >>> 32 →
          RCP.write dev.logged Dual a e c (s, log) = RCP.write dev.logged Dual a d c (s, log) := by
  have hu : ∀ x, x < 2 ^ 64 → u32 (x >>> 32) = x >>> 32 := fun x hx =>
    Nat.mod_eq_of_lt (shiftRight32_lt x hx)
  refine ⟨?_, Nat.shiftRight_eq_div_pow d 32, shiftRight32_lt d hd, ?_⟩
  · rw [RCP_write_Dual, hu d hd]
    rfl
  · intro e he heq
    rw [RCP_write_Dual, RCP_write_Dual, hu d hd, hu e he, heq]

/-- C5, witness: writing `0x1122334455667788` at address 0 of a two-word array stores
`0x11223344` in word 0 by a single `writeWord(0, 0x11223344)` and leaves word 1 alone. -/
theorem C5_write_Dual_high_word_only_witness :
    RCP.write wordArray.logged Dual 0 0x1122334455667788 7 ([0xAAAA, 0xBBBB], [])
      = .ret (0, ([0x11223344, 0xBBBB], [RCPCall.writeWord 0 0x11223344 0])) :=
  (C5_write_Dual_high_word_only wordArray 0 0x1122334455667788 7 [0xAAAA, 0xBBBB] []
    (by decide)).1

/-- C6.  Default cost.  For each of the widths Byte, Half, Word and Dual, on a device whose
`readWord` and `writeWord` leave the cycles parameter as they found it, `RCP::read` returns
with cycles exactly 20 and `RCP::write` returns with cycles exactly 0, whatever value
`cycles` held before the call. -/
theorem C6_default_cycles {σ : Type} (dev : RCPDevice σ) (Size a d c : Nat) (s : σ)
    (hS : Size = Byte ∨ Size = Half ∨ Size = Word ∨ Size = Dual)
    (hr : ∀ t x y, (dev.readWord t x y).2.1 = y)
    (hw : ∀ t x z y, (dev.writeWord t x z y).1 = y) :
    (∃ v t, RCP.read dev Size a c s = .ret (v, 20, t))
      ∧ (∃ t, RCP.write dev Size a d c s = .ret (0, t)) := by
  have hret : ∀ x z, Outcome.ret (dev.writeWord s x z 0)
      = Outcome.ret (0, (dev.writeWord s x z 0).2) := fun x z =>
    congrArg Outcome.ret (Prod.ext (hw s x z 0) rfl)
  rcases hS with h | h | h | h <;> subst h
  · exact ⟨⟨_, _, by rw [RCP_read_Byte, hr]⟩, ⟨_, by rw [RCP_write_Byte]; exact hret _ _⟩⟩
  · exact ⟨⟨_, _, by rw [RCP_read_Half, hr]⟩, ⟨_, by rw [RCP_write_Half]; exact hret _ _⟩⟩
  · exact ⟨⟨_, _, by rw [RCP_read_Word, hr]⟩, ⟨_, by rw [RCP_write_Word]; exact hret _ _⟩⟩
  · exact ⟨⟨_, _, by rw [RCP_read_Dual, hr, hr]⟩, ⟨_, by rw [RCP_write_Dual]; exact hret _ _⟩⟩

/-- C6, witness: the word array leaves the cycles alone; a Dual read entered with cycles 999
comes back with 20 and a Byte write entered with cycles 999 comes back with 0. -/
theorem C6_default_cycles_witness :
    (∃ v t, RCP.read wordArray Dual 0 999 [0x11223344, 0x55667788] = .ret (v, 20, t))
      ∧ (∃ t, RCP.write wordArray Dual 0 5 999 [0x11223344, 0x55667788] = .ret (0, t)) :=
  C6_default_cycles wordArray Dual 0 5 999 [0x11223344, 0x55667788]
    (Or.inr (Or.inr (Or.inr rfl))) (fun _ _ _ => rfl) (fun _ _ _ _ => rfl)

/-- C7.  Legal widths of `PI`.  For every device, address and value, `PI::read<Size>` and
`PI::write<Size>` return normally exactly when `Size` is Half or Word; for every other
`Size`, Byte and Dual among them, the `static_assert` refuses the instantiation: the
outcome is `rejected`, which carries no device state, so no native accessor has run. -/
theorem C7_PI_legal_widths {σ : Type} (dev : PIDevice σ) (Size a d : Nat) (s : σ) :
    ((∃ r, PI.read dev Size a s = .ret r) ↔ Size = Half ∨ Size = Word)
      ∧ ((∃ t, PI.write dev Size a d s = .ret t) ↔ Size = Half ∨ Size = Word)
      ∧ (PI.read dev Size a s = .rejected ↔ ¬ (Size = Half ∨ Size = Word))
      ∧ (PI.write dev Size a d s = .rejected ↔ ¬ (Size = Half ∨ Size = Word))
      ∧ PI.read dev Byte a s = .rejected ∧ PI.write dev Byte a d s = .rejected
      ∧ PI.read dev Dual a s = .rejected ∧ PI.write dev Dual a d s = .rejected := by
  have hB : ¬ (Byte = Half ∨ Byte = Word) := by decide
  have hD : ¬ (Dual = Half ∨ Dual = Word) := by decide
  refine ⟨?_, ?_, ?_, ?_, PI_read_illegal dev Byte a s hB, PI_write_illegal dev Byte a d s hB,
    PI_read_illegal dev Dual a s hD, PI_write_illegal dev Dual a d s hD⟩
  all_goals
    by_cases h : Size = Half ∨ Size = Word
    · rcases h with h | h <;> subst h <;>
        simp [PI_read_Half, PI_read_Word, PI_write_Half, PI_write_Word]
    · simp [PI_read_illegal dev Size a s h, PI_write_illegal dev Size a d s h, h]

/-- C7, witness: on a recording halfword array, Byte and Dual requests are rejected while
a Half read and a Word write go through to the device. -/
theorem C7_PI_legal_widths_witness :
    PI.read halfArray.logged Byte 2 ([0x1122, 0x3344], []) = .rejected
      ∧ PI.write halfArray.logged Dual 2 5 ([0x1122, 0x3344], []) = .rejected
      ∧ (∃ r, PI.read halfArray.logged Half 2 ([0x1122, 0x3344], []) = .ret r)
      ∧ (∃ t, PI.write halfArray.logged Word 2 5 ([0x1122, 0x3344], []) = .ret t) :=
  have hB := C7_PI_legal_widths halfArray.logged Byte 2 5 ([0x1122, 0x3344], [])
  have hH := C7_PI_legal_widths halfArray.logged Half 2 5 ([0x1122, 0x3344], [])
  have hW := C7_PI_legal_widths halfArray.logged Word 2 5 ([0x1122, 0x3344], [])
  ⟨hB.2.2.2.2.1, hB.2.2.2.2.2.2.2, hH.1.2 (Or.inl rfl), hW.2.1.2 (Or.inr rfl)⟩

/-- C8.  Legal widths of `SI`.  For every device, address and value, `SI::read<Size>` and
`SI::write<Size>` return normally exactly when `Size` is Word; for every other `Size`,
Byte, Half and Dual among them, the `static_assert` refuses the instantiation: the outcome
is `rejected`, which carries no device state, so `readWord`/`writeWord` has not run. -/
theorem C8_SI_legal_widths {σ : Type} (dev : SIDevice σ) (Size a d : Nat) (s : σ) :
    ((∃ r, SI.read dev Size a s = .ret r) ↔ Size = Word)
      ∧ ((∃ t, SI.write dev Size a d s = .ret t) ↔ Size = Word)
      ∧ (SI.read dev Size a s = .rejected ↔ Size ≠ Word)
      ∧ (SI.write dev Size a d s = .rejected ↔ Size ≠ Word)
      ∧ SI.read dev Byte a s = .rejected ∧ SI.write dev Byte a d s = .rejected
      ∧ SI.read dev Half a s = .rejected ∧ SI.write dev Half a d s = .rejected
      ∧ SI.read dev Dual a s = .rejected ∧ SI.write dev Dual a d s = .rejected := by
  have hB : Byte ≠ Word := by decide
  have hH : Half ≠ Word := by decide
  have hD : Dual ≠ Word := by decide
  refine ⟨?_, ?_, ?_, ?_, SI_read_illegal dev Byte a s hB, SI_write_illegal dev Byte a d s hB,
    SI_read_illegal dev Half a s hH, SI_write_illegal dev Half a d s hH,
    SI_read_illegal dev Dual a s hD, SI_write_illegal dev Dual a d s hD⟩
  all_goals
    by_cases h : Size = Word
    · subst h
      simp [SI_read_Word, SI_write_Word]
    · simp [SI_read_illegal dev Size a s h, SI_write_illegal dev Size a d s h, h]

/-- C8, witness: on a recording word array, a Half read is rejected while a Word read goes
through to the device. -/
theorem C8_SI_legal_widths_witness :
    SI.read siArray.logged Half 0 ([0x11223344], []) = .rejected
      ∧ (∃ r, SI.read siArray.logged Word 0 ([0x11223344], []) = .ret r) :=
  have hH := C8_SI_legal_widths siArray.logged Half 0 5 ([0x11223344], [])
  have hW := C8_SI_legal_widths siArray.logged Word 0 5 ([0x11223344], [])
  ⟨hH.2.2.2.2.2.2.1, hW.1.2 rfl⟩

/-- C9, the code at the failing input.  With the width tag 3, which is none of Byte, Half,
Word and Dual, `RCP::read<3>` reaches `unreachable`, whereas `RCP::write<3>` falls off the end
of the function: it returns normally with cycles 0, the recording device has received no
call and its word array is as before. -/
theorem C9_write_illegal_width_returns :
    RCP.read wordArray.logged 3 0 7 ([0x11223344], []) = .unreachable
      ∧ RCP.write wordArray.logged 3 0 0xAB 7 ([0x11223344], [])
        = .ret (0, ([0x11223344], []))
      ∧ RCP.write wordArray.logged 3 0 0xAB 7 ([0x11223344], []) ≠ .unreachable := by
  decide

/-- C10.  Word access is the identity translation.  `RCP::read<Word>(a)` performs exactly
one native call, `readWord(a)` with the default 20 cycles, and returns its result unchanged
together with the cycles and state it left; `RCP::write<Word>(a, d)` performs exactly one
native call, `writeWord(a, d mod 2^32)` with the default 0 cycles. -/
theorem C10_Word_identity {σ : Type} (dev : RCPDevice σ) (a d c : Nat) (s : σ)
    (log : List RCPCall) :
    RCP.read dev.logged Word a c (s, log)
        = .ret ((dev.readWord s a 20).1, (dev.readWord s a 20).2.1,
            ((dev.readWord s a 20).2.2, log ++ [RCPCall.readWord a 20]))
      ∧ RCP.write dev.logged Word a d c (s, log)
        = .ret ((dev.writeWord s a (d % 2 ^ 32) 0).1,
            ((dev.writeWord s a (d % 2 ^ 32) 0).2,
              log ++ [RCPCall.writeWord a (d % 2 ^ 32) 0])) := by
  constructor
  · rw [RCP_read_Word]
    rfl
  · rw [RCP_write_Word]
    rfl

/-- C10, witness: word `0x11223344` at address 0 reads back as `0x11223344` by one call,
and a Word write of `0x1_55667788` delivers `0x55667788` by one call. -/
theorem C10_Word_identity_witness :
    RCP.read wordArray.logged Word 0 7 ([0x11223344, 0x55667788], [])
        = .ret (0x11223344, 20, ([0x11223344, 0x55667788], [RCPCall.readWord 0 20]))
      ∧ RCP.write wordArray.logged Word 0 0x155667788 7 ([0x11223344, 0x55667788], [])
        = .ret (0, ([0x55667788, 0x55667788], [RCPCall.writeWord 0 0x55667788 0])) :=
  C10_Word_identity wordArray 0 0x155667788 7 [0x11223344, 0x55667788] []

/-- C11.  The dispatch of `PI` and `SI` adds nothing of its own.  On a recording device,
`PI::read<Half>(a)` is exactly the call `readHalf(a)` and `PI::read<Word>(a)` exactly
`readWord(a)`, whose result is returned as it is; `PI::write<Half>(a, d)` is exactly the call
`writeHalf(a, d mod 2^16)` and `PI::write<Word>(a, d)` exactly `writeWord(a, d mod 2^32)`;
`SI::read<Word>(a)` is exactly `readWord(a)` and `SI::write<Word>(a, d)` exactly
`writeWord(a, d mod 2^32)`.  Each time the log grows by that one call, at the address `a`
unmodified, and the device state is the one the call left. -/
theorem C11_PI_SI_dispatch {σ τ : Type} (p : PIDevice σ) (q : SIDevice τ) (a d : Nat)
    (s : σ) (t : τ) (log : List BusCall) :
    PI.read p.logged Half a (s, log)
        = .ret ((p.readHalf s a).1, ((p.readHalf s a).2, log ++ [BusCall.readHalf a]))
      ∧ PI.read p.logged Word a (s, log)
        = .ret ((p.readWord s a).1, ((p.readWord s a).2, log ++ [BusCall.readWord a]))
      ∧ PI.write p.logged Half a d (s, log)
        = .ret (p.writeHalf s a (d % 2 ^ 16), log ++ [BusCall.writeHalf a (d % 2 ^ 16)])
      ∧ PI.write p.logged Word a d (s, log)
        = .ret (p.writeWord s a (d % 2 ^ 32), log ++ [BusCall.writeWord a (d % 2 ^ 32)])
      ∧ SI.read q.logged Word a (t, log)
        = .ret ((q.readWord t a).1, ((q.readWord t a).2, log ++ [BusCall.readWord a]))
      ∧ SI.write q.logged Word a d (t, log)
        = .ret (q.writeWord t a (d % 2 ^ 32), log ++ [BusCall.writeWord a (d % 2 ^ 32)]) := by
  refine ⟨?_, ?_, ?_, ?_, ?_, ?_⟩
  · rw [PI_read_Half]
    rfl
  · rw [PI_read_Word]
    rfl
  · rw [PI_write_Half]
    rfl
  · rw [PI_write_Word]
    rfl
  · rw [SI_read_Word]
    rfl
  · rw [SI_write_Word]
    rfl

/-- C11, witness: on recording arrays a Half read at address 2 is the single call
`readHalf(2)`, a Half write of `0x1BEEF` the single call `writeHalf(2, 0xBEEF)`, and an `SI`
Word read at address 4 the single call `readWord(4)`. -/
theorem C11_PI_SI_dispatch_witness :
    PI.read halfArray.logged Half 2 ([0x1122, 0x3344], [])
        = .ret (0x3344, ([0x1122, 0x3344], [BusCall.readHalf 2]))
      ∧ PI.write halfArray.logged Half 2 0x1BEEF ([0x1122, 0x3344], [])
        = .ret ([0x1122, 0xBEEF], [BusCall.writeHalf 2 0xBEEF])
      ∧ SI.read siArray.logged Word 4 ([0x11223344, 0x55667788], [])
        = .ret (0x55667788, ([0x11223344, 0x55667788], [BusCall.readWord 4])) :=
  have h := C11_PI_SI_dispatch halfArray siArray 2 0x1BEEF [0x1122, 0x3344]
    [0x11223344, 0x55667788] []
  have k := C11_PI_SI_dispatch halfArray siArray 4 0 [0x1122, 0x3344]
    [0x11223344, 0x55667788] []
  ⟨h.1, h.2.2.1, k.2.2.2.2.1⟩

/-- C12, counterexample.  A Byte write of `0x1FF` at address 3 delivers the word `0x1FF`:
bit 8 is set although lane 3 is bits 7..0.  A Half write of `0x1FFFF` at address 2 delivers
`0x1FFFF`: bit 16 is set although the halfword selected is bits 15..0. -/
theorem C12_counterexample :
    RCP.write wordArray.logged Byte 3 0x1FF 0 ([0], [])
        = .ret (0, ([0x1FF], [RCPCall.writeWord 3 0x1FF 0]))
      ∧ 24 - 8 * (3 &&& 3) = 0 ∧ Nat.testBit 0x1FF 8 = true
      ∧ RCP.write wordArray.logged Half 2 0x1FFFF 0 ([0], [])
        = .ret (0, ([0x1FFFF], [RCPCall.writeWord 2 0x1FFFF 0]))
      ∧ 2 &&& 2 ≠ 0 ∧ Nat.testBit 0x1FFFF 16 = true := by
  decide

/-- C12, amended.  The word `x` delivered by `RCP::write<Byte>(a, d)` is `d << (24 - 8*(a&3))`
cut to 32 bits, and the word `y` delivered by `RCP::write<Half>(a, d)` is `d << 16` when
`a&2 = 0` and `d` otherwise, cut to 32 bits.  For every `d` the bits below the target lane
are zero and the lane holds the low 8 (resp. 16) bits of `d`.  The bits above the lane are
the higher bits of `d`: they are zero when `d` fits the width (`d < 2^8` resp. `d < 2^16`),
and bits 32 and up are always zero. -/
theorem C12_write_lane_bits {σ : Type} (dev : RCPDevice σ) (a d c x y : Nat) (s : σ)
    (log : List RCPCall)
    (hx : x = u32 (u64 (d <<< (24 - 8 * (a &&& 3)))))
    (hy : y = u32 (u64 (d <<< (if a &&& 2 = 0 then 16 else 0)))) :
    (RCP.write dev.logged Byte a d c (s, log)
        = .ret ((dev.writeWord s a x 0).1,
            ((dev.writeWord s a x 0).2, log ++ [RCPCall.writeWord a x 0]))
      ∧ (∀ i, i < 24 - 8 * (a &&& 3) → x.testBit i = false)
      ∧ (∀ i, i < 8 → x.testBit (24 - 8 * (a &&& 3) + i) = d.testBit i)
      ∧ (d < 2 ^ 8 → ∀ i, 24 - 8 * (a &&& 3) + 8 ≤ i → x.testBit i = false)
      ∧ (∀ i, 32 ≤ i → x.testBit i = false))
    ∧ (RCP.write dev.logged Half a d c (s, log)
        = .ret ((dev.writeWord s a y 0).1,
            ((dev.writeWord s a y 0).2, log ++ [RCPCall.writeWord a y 0]))
      ∧ (∀ i, i < (if a &&& 2 = 0 then 16 else 0) → y.testBit i = false)
      ∧ (∀ i, i < 16 → y.testBit ((if a &&& 2 = 0 then 16 else 0) + i) = d.testBit i)
      ∧ (d < 2 ^ 16 → ∀ i, (if a &&& 2 = 0 then 16 else 0) + 16 ≤ i → y.testBit i = false)
      ∧ (∀ i, 32 ≤ i → y.testBit i = false)) := by
  subst hx hy
  have hk : a &&& 3 ≤ 3 := Nat.and_le_right
  have hsh : (if a &&& 2 = 0 then 16 else 0) + 16 ≤ 32 := by
    by_cases h : a &&& 2 = 0 <;> simp [h]
  refine ⟨⟨?_, fun i hi => testBit_lane_below d _ i hi,
      fun i hi => testBit_lane_inside d _ 8 i (by omega) hi,
      fun hd i hi => testBit_lane_above d _ 8 i hd hi,
      fun i hi => testBit_lane_top d _ i hi⟩,
    ⟨?_, fun i hi => testBit_lane_below d _ i hi,
      fun i hi => testBit_lane_inside d _ 16 i hsh hi,
      fun hd i hi => testBit_lane_above d _ 16 i hd hi,
      fun i hi => testBit_lane_top d _ i hi⟩⟩
  · rw [RCP_write_Byte]
    rfl
  · rw [RCP_write_Half]
    rfl

/-- C12, witness of the amended statement: the byte `0xAB` written at address 1 is delivered
as `0x00AB0000`, whose bit 15 (below the lane) and bit 24 (above the lane) are zero and
whose bit 16 is bit 0 of `0xAB`. -/
theorem C12_write_lane_bits_witness :
    RCP.write wordArray.logged Byte 1 0xAB 0 ([0], [])
        = .ret (0, ([0xAB0000], [RCPCall.writeWord 1 0xAB0000 0]))
      ∧ Nat.testBit 0xAB0000 15 = false
      ∧ Nat.testBit 0xAB0000 (16 + 0) = Nat.testBit 0xAB 0
      ∧ Nat.testBit 0xAB0000 24 = false :=
  have h := (C12_write_lane_bits wordArray 1 0xAB 0 0xAB0000 0xAB0000 [0] [] (by decide)
    (by decide)).1
  ⟨h.1, h.2.1 15 (by decide), h.2.2.1 0 (by decide), h.2.2.2.1 (by decide) 24 (by decide)⟩

/-- C13.  A sub-word read is exactly a right shift of the native word.  When `readWord`
returns the 32-bit word `w`, `RCP::read<Half>(a)` returns `w >> (16 - 16*((a>>1)&1))` and
`RCP::read<Byte>(a)` returns `w >> (24 - 8*(a&3))`, with the cycles and state `readWord`
left.  The low 16 (resp. 8) bits of the result are the big-endian halfword (resp. byte) lane
selected by the address, and the result is below `2^32`. -/
theorem C13_read_subword_shift {σ : Type} (dev : RCPDevice σ) (a c w c1 : Nat) (s s1 : σ)
    (hr : dev.readWord s a RCP.DefaultReadCycles = (w, c1, s1)) (hw : w < 2 ^ 32) :
    RCP.read dev Half a c s = .ret (w >>> (16 - 16 * ((a >>> 1) &&& 1)), c1, s1)
      ∧ RCP.read dev Byte a c s = .ret (w >>> (24 - 8 * (a &&& 3)), c1, s1)
      ∧ (w >>> (16 - 16 * ((a >>> 1) &&& 1))) % 2 ^ 16
        = w / 2 ^ (16 * (1 - ((a >>> 1) &&& 1))) % 2 ^ 16
      ∧ (w >>> (24 - 8 * (a &&& 3))) % 2 ^ 8 = w / 2 ^ (8 * (3 - (a &&& 3))) % 2 ^ 8
      ∧ w >>> (16 - 16 * ((a >>> 1) &&& 1)) < 2 ^ 32
      ∧ w >>> (24 - 8 * (a &&& 3)) < 2 ^ 32 := by
  have hr20 : dev.readWord s a 20 = (w, c1, s1) := hr
  have hk : a &&& 3 ≤ 3 := Nat.and_le_right
  have hle : ∀ k, w >>> k < 2 ^ 32 := fun k =>
    Nat.lt_of_le_of_lt (by rw [Nat.shiftRight_eq_div_pow]; exact Nat.div_le_self _ _) hw
  refine ⟨?_, ?_, ?_, shiftRight_lane_byte w _ hk, hle _, hle _⟩
  · rw [RCP_read_Half, hr20, half_shift_eq]
  · rw [RCP_read_Byte, hr20]
  · rw [Nat.shiftRight_eq_div_pow]
    have h : 16 - 16 * ((a >>> 1) &&& 1) = 16 * (1 - ((a >>> 1) &&& 1)) := by omega
    rw [h]

/-- C13, witness: word `0x11223344`; the Half read at address 2 is `0x11223344 >> 0` and the
Byte read at address 1 is `0x11223344 >> 16 = 0x1122`. -/
theorem C13_read_subword_shift_witness :
    RCP.read wordArray Half 2 0 [0x11223344, 0x55667788]
        = .ret (0x11223344, 20, [0x11223344, 0x55667788])
      ∧ RCP.read wordArray Byte 1 0 [0x11223344, 0x55667788]
        = .ret (0x1122, 20, [0x11223344, 0x55667788]) :=
  have h2 := C13_read_subword_shift wordArray 2 0 0x11223344 20 [0x11223344, 0x55667788]
    [0x11223344, 0x55667788] rfl (by decide)
  have h1 := C13_read_subword_shift wordArray 1 0 0x11223344 20 [0x11223344, 0x55667788]
    [0x11223344, 0x55667788] rfl (by decide)
  ⟨h2.1, h1.2.1⟩

/-- C14.  Cost threading.  On a recording device, for Byte, Half and Word the only native call
of `RCP::read` is `readWord(a)` entered with cycles 20, whatever `cycles` held before, and the
cycles reported are those that call left.  In a Dual read the second `readWord` is entered
with the cycles the first one left (not 20 again) and the cycles reported are those the
second call left, not a sum.  For every legal width the only native call of `RCP::write` is
a `writeWord` entered with cycles 0 and the cycles reported are those it left. -/
theorem C14_cost_threading {σ : Type} (dev : RCPDevice σ) (a d c : Nat) (s : σ)
    (log : List RCPCall) :
    (∀ Size, Size = Byte ∨ Size = Half ∨ Size = Word →
        ∃ v, RCP.read dev.logged Size a c (s, log)
          = .ret (v, (dev.readWord s a 20).2.1,
              ((dev.readWord s a 20).2.2, log ++ [RCPCall.readWord a 20])))
      ∧ (∃ v, RCP.read dev.logged Dual a c (s, log)
          = .ret (v,
              (dev.readWord (dev.readWord s a 20).2.2 ((a + 4) % 2 ^ 32)
                (dev.readWord s a 20).2.1).2.1,
              ((dev.readWord (dev.readWord s a 20).2.2 ((a + 4) % 2 ^ 32)
                (dev.readWord s a 20).2.1).2.2,
                log ++ [RCPCall.readWord a 20,
                  RCPCall.readWord ((a + 4) % 2 ^ 32) (dev.readWord s a 20).2.1])))
      ∧ (∀ Size, Size = Byte ∨ Size = Half ∨ Size = Word ∨ Size = Dual →
        ∃ x, RCP.write dev.logged Size a d c (s, log)
          = .ret ((dev.writeWord s a x 0).1,
              ((dev.writeWord s a x 0).2, log ++ [RCPCall.writeWord a x 0]))) := by
  refine ⟨?_, ?_, ?_⟩
  · intro Size hS
    rcases hS with h | h | h <;> subst h
    · rw [RCP_read_Byte]
      exact ⟨_, rfl⟩
    · rw [RCP_read_Half]
      exact ⟨_, rfl⟩
    · rw [RCP_read_Word]
      exact ⟨_, rfl⟩
  · rw [RCP_read_Dual]
    simp only [RCPDevice.logged, List.append_assoc, List.singleton_append]
    exact ⟨_, rfl⟩
  · intro Size hS
    rcases hS with h | h | h | h <;> subst h
    · rw [RCP_write_Byte]
      exact ⟨_, rfl⟩
    · rw [RCP_write_Half]
      exact ⟨_, rfl⟩
    · rw [RCP_write_Word]
      exact ⟨_, rfl⟩
    · rw [RCP_write_Dual]
      exact ⟨_, rfl⟩

/-- C14, witness: the device `costly` leaves `2 * cycles + 3` on a read.  A Dual read entered
with cycles 999 calls `readWord(0)` with 20, which leaves 43, then `readWord(4)` with 43, which
leaves 89: the read reports 89.  A Word write entered with 999 calls `writeWord` with 0 and
reports the 7 it left. -/
theorem C14_cost_threading_witness :
    (∃ v, RCP.read costly.logged Dual 0 999 ((), [])
        = .ret (v, 89, ((), [RCPCall.readWord 0 20, RCPCall.readWord 4 43])))
      ∧ (∃ x, RCP.write costly.logged Word 0 5 999 ((), [])
        = .ret (7, ((), [RCPCall.writeWord 0 x 0]))) :=
  have h := C14_cost_threading costly 0 5 999 () []
  ⟨h.2.1, h.2.2 Word (Or.inr (Or.inr (Or.inl rfl)))⟩

/-- C15.  `RCP` does not align addresses.  On a recording device a Byte or Half read is
exactly one `readWord` and a Byte or Half write exactly one `writeWord`, and the address of
that call is the caller's `a` as it is, whatever its low bits; `a&3` resp. `a&2` only choose
the shift amount. -/
theorem C15_no_alignment {σ : Type} (dev : RCPDevice σ) (a d c : Nat) (s : σ)
    (log : List RCPCall) :
    RCP.read dev.logged Byte a c (s, log)
        = .ret ((dev.readWord s a 20).1 >>> (24 - 8 * (a &&& 3)), (dev.readWord s a 20).2.1,
            ((dev.readWord s a 20).2.2, log ++ [RCPCall.readWord a 20]))
      ∧ RCP.read dev.logged Half a c (s, log)
        = .ret ((dev.readWord s a 20).1 >>> (if a &&& 2 = 0 then 16 else 0),
            (dev.readWord s a 20).2.1,
            ((dev.readWord s a 20).2.2, log ++ [RCPCall.readWord a 20]))
      ∧ RCP.write dev.logged Byte a d c (s, log)
        = .ret ((dev.writeWord s a ((d <<< (24 - 8 * (a &&& 3))) % 2 ^ 64 % 2 ^ 32) 0).1,
            ((dev.writeWord s a ((d <<< (24 - 8 * (a &&& 3))) % 2 ^ 64 % 2 ^ 32) 0).2,
              log ++ [RCPCall.writeWord a
                ((d <<< (24 - 8 * (a &&& 3))) % 2 ^ 64 % 2 ^ 32) 0]))
      ∧ RCP.write dev.logged Half a d c (s, log)
        = .ret ((dev.writeWord s a
              ((d <<< (if a &&& 2 = 0 then 16 else 0)) % 2 ^ 64 % 2 ^ 32) 0).1,
            ((dev.writeWord s a
              ((d <<< (if a &&& 2 = 0 then 16 else 0)) % 2 ^ 64 % 2 ^ 32) 0).2,
              log ++ [RCPCall.writeWord a
                ((d <<< (if a &&& 2 = 0 then 16 else 0)) % 2 ^ 64 % 2 ^ 32) 0])) := by
  refine ⟨?_, ?_, ?_, ?_⟩
  · rw [RCP_read_Byte]
    rfl
  · rw [RCP_read_Half]
    rfl
  · rw [RCP_write_Byte]
    rfl
  · rw [RCP_write_Half]
    rfl

/-- C15, witness: a Byte read at the unaligned address 7 calls `readWord(7)`, not
`readWord(4)`, and a Half write at address 6 calls `writeWord(6, ..)`. -/
theorem C15_no_alignment_witness :
    RCP.read costly.logged Byte 7 0 ((), [])
        = .ret (7, 43, ((), [RCPCall.readWord 7 20]))
      ∧ RCP.write costly.logged Half 6 0xBEEF 0 ((), [])
        = .ret (7, ((), [RCPCall.writeWord 6 0xBEEF 0])) :=
  have h := C15_no_alignment costly 7 0 0 () []
  have k := C15_no_alignment costly 6 0xBEEF 0 () []
  ⟨h.1, k.2.2.2⟩

/-- C16.  The `unreachable` marker is dead for legal requests.  For each of Byte, Half, Word
and Dual and every address, `RCP::read` returns from one of its arms and does not reach
`unreachable`: `a&3` is one of 0, 1, 2, 3 and `a&2` is one of 0, 2, so both switches are
exhaustive.  Likewise `PI::read`/`PI::write` with Half or Word and `SI::read`/`SI::write` with
Word return and do not reach `unreachable`. -/
theorem C16_unreachable_dead {σ τ υ : Type} (r : RCPDevice σ) (p : PIDevice τ)
    (q : SIDevice υ) (Size a d c : Nat) (s : σ) (t : τ) (u : υ) :
    (Size = Byte ∨ Size = Half ∨ Size = Word ∨ Size = Dual →
        (∃ x, RCP.read r Size a c s = .ret x) ∧ RCP.read r Size a c s ≠ .unreachable)
      ∧ (a &&& 3 = 0 ∨ a &&& 3 = 1 ∨ a &&& 3 = 2 ∨ a &&& 3 = 3)
      ∧ (a &&& 2 = 0 ∨ a &&& 2 = 2)
      ∧ (Size = Half ∨ Size = Word →
        (∃ x, PI.read p Size a t = .ret x) ∧ PI.read p Size a t ≠ .unreachable
          ∧ (∃ x, PI.write p Size a d t = .ret x) ∧ PI.write p Size a d t ≠ .unreachable)
      ∧ (Size = Word →
        (∃ x, SI.read q Size a u = .ret x) ∧ SI.read q Size a u ≠ .unreachable
          ∧ (∃ x, SI.write q Size a d u = .ret x) ∧ SI.write q Size a d u ≠ .unreachable) := by
  refine ⟨?_, and_three_cases a, and_two_cases a, ?_, ?_⟩
  · intro hS
    rcases hS with h | h | h | h <;> subst h
    · rw [RCP_read_Byte]
      exact ⟨⟨_, rfl⟩, by simp⟩
    · rw [RCP_read_Half]
      exact ⟨⟨_, rfl⟩, by simp⟩
    · rw [RCP_read_Word]
      exact ⟨⟨_, rfl⟩, by simp⟩
    · rw [RCP_read_Dual]
      exact ⟨⟨_, rfl⟩, by simp⟩
  · intro hS
    rcases hS with h | h <;> subst h
    · rw [PI_read_Half, PI_write_Half]
      exact ⟨⟨_, rfl⟩, by simp, ⟨_, rfl⟩, by simp⟩
    · rw [PI_read_Word, PI_write_Word]
      exact ⟨⟨_, rfl⟩, by simp, ⟨_, rfl⟩, by simp⟩
  · intro hS
    subst hS
    rw [SI_read_Word, SI_write_Word]
    exact ⟨⟨_, rfl⟩, by simp, ⟨_, rfl⟩, by simp⟩

/-- C16, witness: a Byte read at address 3, a `PI` Half write and an `SI` Word read all
return and do not reach `unreachable`. -/
theorem C16_unreachable_dead_witness :
    RCP.read wordArray Byte 3 0 [0x11223344] ≠ .unreachable
      ∧ PI.write halfArray Half 3 5 [0x1122, 0x3344] ≠ .unreachable
      ∧ SI.read siArray Word 3 [0x11223344] ≠ .unreachable :=
  have hB := (C16_unreachable_dead wordArray halfArray siArray Byte 3 5 0 [0x11223344]
    [0x1122, 0x3344] [0x11223344]).1 (Or.inl rfl)
  have hH := (C16_unreachable_dead wordArray halfArray siArray Half 3 5 0 [0x11223344]
    [0x1122, 0x3344] [0x11223344]).2.2.2.1 (Or.inl rfl)
  have hW := (C16_unreachable_dead wordArray halfArray siArray Word 3 5 0 [0x11223344]
    [0x1122, 0x3344] [0x11223344]).2.2.2.2 rfl
  ⟨hB.2, hH.2.2.2, hW.2.1⟩

/-- C17.  The adapters are stateless.  When the native read accessors of a device leave its
state as they found it, a read through the adapter (`RCP` with Byte, Half, Word or Dual, `PI`
with Half or Word, `SI` with Word) returns with the device state unchanged, and a second read
of the same width and address, run on the state the first one left, returns the same value
(for `RCP` also the same cycles) whatever `cycles` held on entry; an earlier `RCP` read of any
legal width and address does not change what the read returns. -/
theorem C17_adapters_stateless {σ τ υ : Type} (r : RCPDevice σ) (p : PIDevice τ)
    (q : SIDevice υ) (Size Size0 a a0 c0 c1 c2 : Nat) (s : σ) (t : τ) (u : υ)
    (hr : ∀ s x y, (r.readWord s x y).2.2 = s)
    (hph : ∀ t x, (p.readHalf t x).2 = t)
    (hpw : ∀ t x, (p.readWord t x).2 = t)
    (hq : ∀ u x, (q.readWord u x).2 = u) :
    (Size = Byte ∨ Size = Half ∨ Size = Word ∨ Size = Dual →
        (∃ v k, RCP.read r Size a c1 s = .ret (v, k, s))
          ∧ (∀ v k s1, RCP.read r Size a c1 s = .ret (v, k, s1) →
              RCP.read r Size a c2 s1 = .ret (v, k, s1))
          ∧ (Size0 = Byte ∨ Size0 = Half ∨ Size0 = Word ∨ Size0 = Dual →
              ∀ v0 k0 s0, RCP.read r Size0 a0 c0 s = .ret (v0, k0, s0) →
                RCP.read r Size a c2 s0 = RCP.read r Size a c1 s))
      ∧ (Size = Half ∨ Size = Word →
        (∃ v, PI.read p Size a t = .ret (v, t))
          ∧ (∀ v t1, PI.read p Size a t = .ret (v, t1) → PI.read p Size a t1 = .ret (v, t1)))
      ∧ (Size = Word →
        (∃ v, SI.read q Size a u = .ret (v, u))
          ∧ (∀ v u1, SI.read q Size a u = .ret (v, u1) →
              SI.read q Size a u1 = .ret (v, u1))) := by
  refine ⟨?_, ?_, ?_⟩
  · intro hS
    obtain ⟨v, k, hvk⟩ := RCP_read_keeps_state r Size a c1 s hS hr
    refine ⟨⟨v, k, hvk⟩, ?_, ?_⟩
    · intro v1 k1 s1 h1
      have h2 : (v, k, s) = (v1, k1, s1) := Outcome.ret.inj (hvk.symm.trans h1)
      cases h2
      rw [RCP_read_cycles_irrelevant r Size a c2 c1 s]
      exact hvk
    · intro hS0 v0 k0 s0 h0
      obtain ⟨w, j, hwj⟩ := RCP_read_keeps_state r Size0 a0 c0 s hS0 hr
      have h2 : (w, j, s) = (v0, k0, s0) := Outcome.ret.inj (hwj.symm.trans h0)
      cases h2
      exact RCP_read_cycles_irrelevant r Size a c2 c1 s
  · intro hS
    have hex : ∃ v, PI.read p Size a t = .ret (v, t) := by
      rcases hS with h | h <;> subst h
      · rw [PI_read_Half]
        exact ⟨(p.readHalf t a).1, congrArg Outcome.ret (Prod.ext rfl (hph t a))⟩
      · rw [PI_read_Word]
        exact ⟨(p.readWord t a).1, congrArg Outcome.ret (Prod.ext rfl (hpw t a))⟩
    obtain ⟨v, hv⟩ := hex
    refine ⟨⟨v, hv⟩, ?_⟩
    intro v1 t1 h1
    have h2 : (v, t) = (v1, t1) := Outcome.ret.inj (hv.symm.trans h1)
    cases h2
    exact hv
  · intro hS
    subst hS
    have hv : SI.read q Word a u = .ret ((q.readWord u a).1, u) := by
      rw [SI_read_Word]
      exact congrArg Outcome.ret (Prod.ext rfl (hq u a))
    refine ⟨⟨_, hv⟩, ?_⟩
    intro v1 u1 h1
    have h2 : ((q.readWord u a).1, u) = (v1, u1) := Outcome.ret.inj (hv.symm.trans h1)
    cases h2
    exact hv

/-- C17, witness: the word array, the halfword array and the `SI` array keep their state on
a read.  A Dual read entered with cycles 5 and the same read entered with cycles 77 both
return `0x1122334455667788` with cycles 20 and the array unchanged; a `PI` Half read and an
`SI` Word read leave their arrays unchanged. -/
theorem C17_adapters_stateless_witness :
    (∃ v k, RCP.read wordArray Dual 0 5 [0x11223344, 0x55667788]
        = .ret (v, k, [0x11223344, 0x55667788]))
      ∧ RCP.read wordArray Dual 0 77 [0x11223344, 0x55667788]
        = .ret (0x1122334455667788, 20, [0x11223344, 0x55667788])
      ∧ (∃ v, PI.read halfArray Half 2 [0x1122, 0x3344] = .ret (v, [0x1122, 0x3344]))
      ∧ (∃ v, SI.read siArray Word 4 [0x11223344, 0x55667788]
        = .ret (v, [0x11223344, 0x55667788])) :=
  have hD := (C17_adapters_stateless wordArray halfArray siArray Dual Byte 0 1 9 5 77
    [0x11223344, 0x55667788] [0x1122, 0x3344] [0x11223344, 0x55667788]
    (fun _ _ _ => rfl) (fun _ _ => rfl) (fun _ _ => rfl) (fun _ _ => rfl)).1
    (Or.inr (Or.inr (Or.inr rfl)))
  have hH := (C17_adapters_stateless wordArray halfArray siArray Half Byte 2 1 9 5 77
    [0x11223344, 0x55667788] [0x1122, 0x3344] [0x11223344, 0x55667788]
    (fun _ _ _ => rfl) (fun _ _ => rfl) (fun _ _ => rfl) (fun _ _ => rfl)).2.1 (Or.inl rfl)
  have hW := (C17_adapters_stateless wordArray halfArray siArray Word Byte 4 1 9 5 77
    [0x11223344, 0x55667788] [0x1122, 0x3344] [0x11223344, 0x55667788]
    (fun _ _ _ => rfl) (fun _ _ => rfl) (fun _ _ => rfl) (fun _ _ => rfl)).2.2 rfl
  ⟨hD.1, hD.2.1 0x1122334455667788 20 [0x11223344, 0x55667788] (by decide), hH.1, hW.1⟩

end Ares
